import Mathlib

/-!
Verification development for the Talky avatar core: the gapless playback
scheduler, the speaking-state signal, the interruption handler, the frame
animator's pool selection, the voice-activity detector, and the two remote
service wrappers, as implemented in `src/components/AvatarInteraction.tsx`
and `src/unnamed/part_001` (services/gemini and types).

Times and durations on the output audio clock are modelled as rationals;
audio samples for the VAD are modelled as reals.
-/

namespace Talky

/-! ## Gapless playback scheduler (live variant, `onmessage` callback)

Source (`AvatarInteraction.tsx`, live variant):
  const now = ctx.currentTime;
  const startTime = Math.max(now, nextStartTimeRef.current);
  source.start(startTime);
  nextStartTimeRef.current = startTime + audioBuffer.duration;
-/

/-- One scheduling step: given the clock reading `now`, the buffer duration
`dur`, and the current horizon `hzn` (the `nextStartTimeRef`), return the
chosen start time and the updated horizon. -/
def schedule (now dur hzn : ℚ) : ℚ × ℚ :=
  let startTime := max now hzn
  (startTime, startTime + dur)

theorem schedule_fst (now dur hzn : ℚ) : (schedule now dur hzn).1 = max now hzn := rfl

theorem schedule_snd (now dur hzn : ℚ) :
    (schedule now dur hzn).2 = max now hzn + dur := rfl

/-- Run the scheduler over a list of events `(now, dur)` — the clock reading
at arrival and the decoded buffer's duration — returning the list of chosen
start times. -/
def runSched (hzn : ℚ) : List (ℚ × ℚ) → List ℚ
  | [] => []
  | (now, dur) :: rest =>
      (schedule now dur hzn).1 :: runSched (schedule now dur hzn).2 rest

/-- Spec-side description of a gapless timeline: starting at `s`, each
buffer begins exactly where the previous one ends. -/
def gaplessStarts (s : ℚ) : List ℚ → List ℚ
  | [] => []
  | d :: rest => s :: gaplessStarts (s + d) rest

/-- Each event arrives no later than the current horizon, i.e. before (or
exactly when) its predecessor finishes playing. -/
def arrivesBeforeEnd (hzn : ℚ) : List (ℚ × ℚ) → Bool
  | [] => true
  | (a, d) :: rest => decide (a ≤ hzn) && arrivesBeforeEnd (schedule a d hzn).2 rest

theorem runSched_of_arrivesBeforeEnd :
    ∀ (evs : List (ℚ × ℚ)) (hzn : ℚ), arrivesBeforeEnd hzn evs = true →
      runSched hzn evs = gaplessStarts hzn (evs.map Prod.snd)
  | [], _, _ => rfl
  | (a, d) :: rest, hzn, h => by
      rw [arrivesBeforeEnd, Bool.and_eq_true, decide_eq_true_eq] at h
      obtain ⟨ha, hrest⟩ := h
      have hmax : max a hzn = hzn := max_eq_right ha
      have ih := runSched_of_arrivesBeforeEnd rest (schedule a d hzn).2 hrest
      rw [schedule_snd, hmax] at ih
      simp only [runSched, gaplessStarts, List.map, schedule_fst, schedule_snd, hmax, ih]

/-- Claim C1: every scheduled buffer starts at `max(now, horizon)` and the
horizon advances to `startTime + duration`; consequently, for a sequence of
buffers whose first arrival is at or after the initial horizon and each later
one arrives before its predecessor finishes playing, the start times are
exactly gapless: `s1 = now0` and `s_{i+1} = s_i + d_i`. -/
theorem claim_c1_gapless_schedule (h0 a1 d1 : ℚ) (rest : List (ℚ × ℚ))
    (hinit : h0 ≤ a1)
    (hchain : arrivesBeforeEnd (a1 + d1) rest = true) :
    (∀ now dur hzn, schedule now dur hzn = (max now hzn, max now hzn + dur)) ∧
    runSched h0 ((a1, d1) :: rest) = gaplessStarts a1 (d1 :: rest.map Prod.snd) := by
  refine ⟨fun now dur hzn => rfl, ?_⟩
  have hmax : max a1 h0 = a1 := max_eq_left hinit
  have h2 : (schedule a1 d1 h0).2 = a1 + d1 := by rw [schedule_snd, hmax]
  have hrest := runSched_of_arrivesBeforeEnd rest (a1 + d1) hchain
  simp only [runSched, gaplessStarts, List.map, schedule_fst, hmax, h2, hrest]

/-- Witness for C1: three buffers with durations 1, 2, 1 arriving at clock
0, 1, 2, from an initial horizon 0, are scheduled exactly back-to-back at
starts 0, 1, 3. -/
theorem claim_c1_witness :
    (0 : ℚ) ≤ 0 ∧
    runSched 0 [((0 : ℚ), (1 : ℚ)), (1, 2), (2, 1)] =
      gaplessStarts 0 [1, 2, 1] :=
  ⟨le_refl 0,
   (claim_c1_gapless_schedule 0 0 1 [(1, 2), (2, 1)] (le_refl 0)
      (by simp [arrivesBeforeEnd, schedule])).2⟩

/-! ## Speaking signal (animation tick)

Source (`AvatarInteraction.tsx`, live variant, animation `setInterval`):
  const isPlaying = ctx.currentTime < nextStartTimeRef.current;
-/

/-- The speaking signal read by the animator: the clock reading is strictly
below the horizon (`nextStartTimeRef`). -/
def isPlaying (t hzn : ℚ) : Bool := decide (t < hzn)

/-- The playback slots `(startTime, duration)` produced by running the
scheduler over the events `(now, dur)`. -/
def runSlotsList (hzn : ℚ) : List (ℚ × ℚ) → List (ℚ × ℚ)
  | [] => []
  | (now, dur) :: rest =>
      ((schedule now dur hzn).1, dur) :: runSlotsList (schedule now dur hzn).2 rest

/-- The horizon after running the scheduler over the events `(now, dur)`. -/
def finalHorizon (hzn : ℚ) : List (ℚ × ℚ) → ℚ
  | [] => hzn
  | (now, dur) :: rest => finalHorizon (schedule now dur hzn).2 rest

theorem lt_finalHorizon_iff (t : ℚ) :
    ∀ (evs : List (ℚ × ℚ)) (hzn : ℚ),
      (∀ e ∈ evs, e.1 ≤ t) → (∀ e ∈ evs, 0 ≤ e.2) →
      (t < finalHorizon hzn evs ↔
        t < hzn ∨ ∃ sd ∈ runSlotsList hzn evs, sd.1 ≤ t ∧ t < sd.1 + sd.2)
  | [], hzn, _, _ => by simp [finalHorizon, runSlotsList]
  | (a, d) :: rest, hzn, harr, hdur => by
      have ha : a ≤ t := harr (a, d) (List.mem_cons_self _ _)
      have hd : (0 : ℚ) ≤ d := hdur (a, d) (List.mem_cons_self _ _)
      have ih := lt_finalHorizon_iff t rest (schedule a d hzn).2
        (fun e he => harr e (List.mem_cons_of_mem _ he))
        (fun e he => hdur e (List.mem_cons_of_mem _ he))
      have hkey : t < max a hzn + d ↔ t < hzn ∨ (max a hzn ≤ t ∧ t < max a hzn + d) := by
        constructor
        · intro h
          rcases le_or_lt (max a hzn) t with hle | hlt
          · exact Or.inr ⟨hle, h⟩
          · rcases lt_max_iff.mp hlt with h1 | h2
            · exact absurd ha (not_le_of_lt h1)
            · exact Or.inl h2
        · rintro (h | ⟨_, h2⟩)
          · exact lt_of_lt_of_le h (le_trans (le_max_right a hzn) (le_add_of_nonneg_right hd))
          · exact h2
      rw [finalHorizon, runSlotsList, ih, schedule_snd, schedule_fst, hkey]
      simp only [List.mem_cons]
      constructor
      · rintro ((h | h) | h)
        · exact Or.inl h
        · exact Or.inr ⟨(max a hzn, d), Or.inl rfl, h⟩
        · obtain ⟨sd, hmem, hP⟩ := h
          exact Or.inr ⟨sd, Or.inr hmem, hP⟩
      · rintro (h | ⟨sd, hsd | hsd, hP⟩)
        · exact Or.inl (Or.inl h)
        · exact Or.inl (Or.inr (by rw [hsd] at hP; exact hP))
        · exact Or.inr ⟨sd, hsd, hP⟩

/-- Claim C2: the speaking signal is exactly the predicate `t < horizon`,
and — for a clock reading `t` taken at or after every arrival in the
schedule history, starting from the session-initial horizon `0` — it is true
exactly on the union of the scheduled slots `[s_i, s_i + d_i)`. -/
theorem claim_c2_isPlaying_iff_in_slot (evs : List (ℚ × ℚ)) (t : ℚ)
    (ht : 0 ≤ t) (harr : ∀ e ∈ evs, e.1 ≤ t) (hdur : ∀ e ∈ evs, 0 ≤ e.2) :
    (∀ u h, isPlaying u h = true ↔ u < h) ∧
    (isPlaying t (finalHorizon 0 evs) = true ↔
      ∃ sd ∈ runSlotsList 0 evs, sd.1 ≤ t ∧ t < sd.1 + sd.2) := by
  refine ⟨fun u h => by simp [isPlaying], ?_⟩
  rw [show (isPlaying t (finalHorizon 0 evs) = true ↔ t < finalHorizon 0 evs) by
        simp [isPlaying]]
  rw [lt_finalHorizon_iff t evs 0 harr hdur]
  constructor
  · rintro (h | h)
    · exact absurd ht (not_le_of_lt h)
    · exact h
  · exact Or.inr

/-- Witness for C2: one buffer of duration 1 scheduled at clock 0; at clock
reading 1/2 the signal is on, and indeed 1/2 lies in the slot `[0, 1)`. -/
theorem claim_c2_witness :
    (0 : ℚ) ≤ 1/2 ∧
    (isPlaying (1/2) (finalHorizon 0 [((0 : ℚ), (1 : ℚ))]) = true ↔
      ∃ sd ∈ runSlotsList 0 [((0 : ℚ), (1 : ℚ))], sd.1 ≤ 1/2 ∧ 1/2 < sd.1 + sd.2) :=
  ⟨by norm_num,
   (claim_c2_isPlaying_iff_in_slot [((0 : ℚ), (1 : ℚ))] (1/2) (by norm_num)
      (by intro e he; simp at he; rw [he]; norm_num)
      (by intro e he; simp at he; rw [he]; norm_num)).2⟩

/-! ## Interruption handler

Source (`AvatarInteraction.tsx`, live variant, `onmessage`):
  if (msg.serverContent?.interrupted) {
    nextStartTimeRef.current = 0; // Stop future playback
  }
-/

/-- The `Interrupted` event handler. The current clock reading `now` and the
current horizon `hzn` are in scope in the callback; the code assigns the
constant `0` to the horizon. -/
def interruptReset (now hzn : ℚ) : ℚ :=
  let _ := now
  let _ := hzn
  0

/-- Counterexample to C3 as stated: at clock reading 1 with horizon 5, the
handler sets the horizon to 0, not to the current clock reading 1. -/
theorem claim_c3_counterexample : interruptReset 1 5 ≠ 1 := by
  intro h
  rw [interruptReset] at h
  exact zero_ne_one h

/-- Claim C3 (amended): the handler sets the horizon to 0 rather than to
`now`; since clock readings are nonnegative, `isPlaying(now)` is still false
immediately post-reset, and every buffer scheduled strictly after the reset
(at a clock reading `now2 ≥ now`) starts at or after the reset's `now`. -/
theorem claim_c3_interrupt_reset (now hzn now2 dur : ℚ)
    (hnow : 0 ≤ now) (hle : now ≤ now2) :
    interruptReset now hzn = 0 ∧
    isPlaying now (interruptReset now hzn) = false ∧
    now ≤ (schedule now2 dur (interruptReset now hzn)).1 := by
  refine ⟨rfl, ?_, ?_⟩
  · simp [isPlaying, interruptReset, not_lt.mpr hnow]
  · rw [schedule_fst, interruptReset]
    exact le_trans hle (le_max_left now2 0)

/-- Witness for C3 (amended): reset at clock 1 with horizon 5, then a buffer
of duration 2 arriving at clock 3. -/
theorem claim_c3_witness :
    (0 : ℚ) ≤ 1 ∧ (1 : ℚ) ≤ 3 ∧
    interruptReset 1 5 = 0 ∧
    isPlaying 1 (interruptReset 1 5) = false ∧
    (1 : ℚ) ≤ (schedule 3 2 (interruptReset 1 5)).1 := by
  have h := claim_c3_interrupt_reset 1 5 3 2 (by norm_num) (by norm_num)
  exact ⟨by norm_num, by norm_num, h.1, h.2.1, h.2.2⟩

/-! ## Inbound audio message handling (horizon effect)

Source (`AvatarInteraction.tsx`, live variant, `onmessage`):
  const base64Audio = msg.serverContent?.modelTurn?.parts?.[0]?.inlineData?.data;
  if (base64Audio) { ... decode ...; schedule; nextStartTimeRef.current = startTime + audioBuffer.duration; }
There is no guard on the decoded buffer's duration.
-/

/-- Horizon after the `onmessage` audio path: `none` models a message whose
audio payload is absent or the empty string (the `if (base64Audio)` check
fails); `some dur` models a message that decodes to a buffer of duration
`dur`, which is scheduled unconditionally. -/
def onMessageAudio (payloadDur : Option ℚ) (now hzn : ℚ) : ℚ :=
  match payloadDur with
  | none => hzn
  | some dur => (schedule now dur hzn).2

/-- Counterexample to C4 as stated: a zero-duration decoded buffer arriving
at clock 2 with horizon 1 is scheduled anyway, and the horizon changes from
1 to `max(2, 1) + 0 = 2`. -/
theorem claim_c4_counterexample : onMessageAudio (some 0) 2 1 ≠ 1 := by
  rw [onMessageAudio, schedule_snd]
  norm_num

/-- Claim C4 (amended): only a message with an absent or empty audio payload
is a no-op for the horizon; a decoded zero-duration buffer is still
scheduled, moving the horizon to `max(now, horizon)` — which leaves it
unchanged only when `now ≤ horizon`. -/
theorem claim_c4_zero_duration (now hzn : ℚ) (hle : now ≤ hzn) :
    onMessageAudio none now hzn = hzn ∧
    onMessageAudio (some 0) now hzn = max now hzn ∧
    onMessageAudio (some 0) now hzn = hzn := by
  refine ⟨rfl, by rw [onMessageAudio, schedule_snd, add_zero], ?_⟩
  rw [onMessageAudio, schedule_snd, add_zero]
  exact max_eq_right hle

/-- Witness for C4 (amended): `now = 1`, `horizon = 3`. -/
theorem claim_c4_witness :
    (1 : ℚ) ≤ 3 ∧ onMessageAudio none 1 3 = 3 ∧ onMessageAudio (some 0) 1 3 = 3 :=
  ⟨by norm_num, (claim_c4_zero_duration 1 3 (by norm_num)).1,
   (claim_c4_zero_duration 1 3 (by norm_num)).2.2⟩

/-! ## Frames and the animator's pool selection

Source (`types`): `enum AvatarState { IDLE, TALKING }`;
`interface Frame { id; dataUrl; state }`.

Source (`AvatarInteraction.tsx`, both variants):
  const idleFrames = frames.filter(f => f.state === AvatarState.IDLE);
  const talkingFrames = frames.filter(f => f.state === AvatarState.TALKING);
  const activePool = isSpeaking ? (talkingFrames.length > 0 ? talkingFrames : frames)
                                : (idleFrames.length > 0 ? idleFrames : frames);
-/

inductive AvatarState where
  | IDLE
  | TALKING
deriving DecidableEq

structure Frame where
  id : String
  dataUrl : String
  state : AvatarState
deriving DecidableEq

def idleFrames (frames : List Frame) : List Frame :=
  frames.filter (fun f => f.state = AvatarState.IDLE)

def talkingFrames (frames : List Frame) : List Frame :=
  frames.filter (fun f => f.state = AvatarState.TALKING)

def activePool (frames : List Frame) (isSpeaking : Bool) : List Frame :=
  if isSpeaking then
    (if (talkingFrames frames).length > 0 then talkingFrames frames else frames)
  else
    (if (idleFrames frames).length > 0 then idleFrames frames else frames)

/-- Turn-based variant's emitted frame (source):
  `const currentFrame = activePool[currentFrameIndex];`
JS out-of-range indexing yields `undefined`, modelled as `none`. -/
def currentFrameTB (frames : List Frame) (isSpeaking : Bool) (idx : ℕ) : Option Frame :=
  (activePool frames isSpeaking).get? idx

/-- Live variant's emitted frame (source):
  const currentFrame = isSpeaking && talkingFrames.length > 0
    ? talkingFrames[currentFrameIndex % talkingFrames.length]
    : idleFrames.length > 0 ? idleFrames[currentFrameIndex % idleFrames.length]
    : frames[currentFrameIndex]; -/
def currentFrameLive (frames : List Frame) (isSpeaking : Bool) (idx : ℕ) : Option Frame :=
  if isSpeaking && (talkingFrames frames).length > 0 then
    (talkingFrames frames).get? (idx % (talkingFrames frames).length)
  else if (idleFrames frames).length > 0 then
    (idleFrames frames).get? (idx % (idleFrames frames).length)
  else
    frames.get? idx

/-- Concrete frame pool for the C5 evaluation: three idle frames and one
talking frame. -/
def c5Frames : List Frame :=
  [⟨"i1", "u1", AvatarState.IDLE⟩, ⟨"i2", "u2", AvatarState.IDLE⟩,
   ⟨"i3", "u3", AvatarState.IDLE⟩, ⟨"t1", "u4", AvatarState.TALKING⟩]

/-- Claim C5 fails on the turn-based variant: with cursor 2 while the active
pool switches to the talking pool of length 1, the turn-based render reads
`activePool[2]` on a pool of length 1 — out of range, yielding `undefined`
(`none`) — whereas reducing the cursor modulo the new pool's length, as the
live variant does, yields the talking frame. -/
theorem claim_c5_code_eval :
    currentFrameTB c5Frames true 2 = none ∧
    (activePool c5Frames true).length = 1 ∧
    currentFrameLive c5Frames true 2 = some ⟨"t1", "u4", AvatarState.TALKING⟩ := by
  refine ⟨?_, ?_, ?_⟩ <;>
    simp [currentFrameTB, currentFrameLive, activePool, talkingFrames, idleFrames,
      c5Frames, List.filter]

/-! ## Fallback policy of the pool selection (C6) -/

/-- Spec-side pool selection, following the spec's words: if the requested
pool (Idle or Talking) is empty fall back to the other pool; if both are
empty fall back to the full unfiltered frame set. -/
def fallbackPoolSpec (frames : List Frame) (speaking : Bool) : List Frame :=
  let requested := if speaking then talkingFrames frames else idleFrames frames
  let other := if speaking then idleFrames frames else talkingFrames frames
  if requested.length > 0 then requested
  else if other.length > 0 then other
  else frames

theorem idleFrames_eq_of_talking_nil (frames : List Frame)
    (h : talkingFrames frames = []) : idleFrames frames = frames := by
  rw [talkingFrames, List.filter_eq_nil_iff] at h
  rw [idleFrames, List.filter_eq_self]
  intro f hf
  have hnot := h f hf
  cases hs : f.state with
  | IDLE => simp [hs]
  | TALKING => exact absurd (by simp [hs]) hnot

theorem talkingFrames_eq_of_idle_nil (frames : List Frame)
    (h : idleFrames frames = []) : talkingFrames frames = frames := by
  rw [idleFrames, List.filter_eq_nil_iff] at h
  rw [talkingFrames, List.filter_eq_self]
  intro f hf
  have hnot := h f hf
  cases hs : f.state with
  | TALKING => simp [hs]
  | IDLE => exact absurd (by simp [hs]) hnot

/-- Claim C6: the animator's pool selection equals the spec's fallback
policy (requested pool if non-empty, else the other pool, else the full
frame set), and the selected pool is non-empty whenever the frame set is. -/
theorem claim_c6_fallback_policy (frames : List Frame) (speaking : Bool) :
    activePool frames speaking = fallbackPoolSpec frames speaking ∧
    (frames ≠ [] → activePool frames speaking ≠ []) := by
  constructor
  · cases speaking with
    | true =>
        by_cases ht : (talkingFrames frames).length > 0
        · simp [activePool, fallbackPoolSpec, ht]
        · have hnil : talkingFrames frames = [] :=
            List.eq_nil_of_length_eq_zero (Nat.eq_zero_of_not_pos ht)
          have hidle := idleFrames_eq_of_talking_nil frames hnil
          by_cases hi : (idleFrames frames).length > 0
          · simp [activePool, fallbackPoolSpec, ht, hi, hidle]
          · simp [activePool, fallbackPoolSpec, ht, hi]
    | false =>
        by_cases hi : (idleFrames frames).length > 0
        · simp [activePool, fallbackPoolSpec, hi]
        · have hnil : idleFrames frames = [] :=
            List.eq_nil_of_length_eq_zero (Nat.eq_zero_of_not_pos hi)
          have htalk := talkingFrames_eq_of_idle_nil frames hnil
          by_cases ht : (talkingFrames frames).length > 0
          · simp [activePool, fallbackPoolSpec, hi, ht, htalk]
          · simp [activePool, fallbackPoolSpec, hi, ht]
  · intro hne
    cases speaking with
    | true =>
        by_cases ht : (talkingFrames frames).length > 0
        · rw [show activePool frames true = talkingFrames frames by
              simp [activePool, ht]]
          exact List.ne_nil_of_length_pos ht
        · rw [show activePool frames true = frames by simp [activePool, ht]]
          exact hne
    | false =>
        by_cases hi : (idleFrames frames).length > 0
        · rw [show activePool frames false = idleFrames frames by
              simp [activePool, hi]]
          exact List.ne_nil_of_length_pos hi
        · rw [show activePool frames false = frames by simp [activePool, hi]]
          exact hne

/-- Witness for C6: on the concrete pool of three idle and one talking
frame, with `speaking = true`, the selection matches the spec's policy and
is non-empty. -/
theorem claim_c6_witness :
    activePool c5Frames true = fallbackPoolSpec c5Frames true ∧
    activePool c5Frames true ≠ [] :=
  ⟨(claim_c6_fallback_policy c5Frames true).1,
   (claim_c6_fallback_policy c5Frames true).2 (by simp [c5Frames])⟩

/-! ## Voice-activity detector

Source (`AvatarInteraction.tsx`, live variant, `processor.onaudioprocess`):
  let sum = 0;
  for (let i = 0; i < inputData.length; i++) sum += inputData[i] * inputData[i];
  const rms = Math.sqrt(sum / inputData.length);
  setIsUserSpeaking(rms > 0.02);
-/

/-- The running sum of squares computed by the `for` loop. -/
def vadSumSq (xs : List ℝ) : ℝ :=
  xs.foldl (fun acc x => acc + x * x) 0

/-- The root-mean-square energy of a sample block. -/
noncomputable def vadRms (xs : List ℝ) : ℝ :=
  Real.sqrt (vadSumSq xs / xs.length)

/-- The classifier: the block counts as user speech when the RMS exceeds the
tuned threshold 0.02. -/
def vadClassify (xs : List ℝ) : Prop := vadRms xs > 0.02

theorem vadSumSq_foldl (xs : List ℝ) :
    ∀ acc : ℝ, xs.foldl (fun a x => a + x * x) acc = acc + (xs.map fun x => x * x).sum := by
  induction xs with
  | nil => intro acc; simp
  | cons y ys ih =>
      intro acc
      simp only [List.foldl, List.map, List.sum_cons]
      rw [ih (acc + y * y)]
      ring

theorem vadSumSq_scale (k : ℝ) (xs : List ℝ) :
    vadSumSq (xs.map fun x => k * x) = k * k * vadSumSq xs := by
  rw [vadSumSq, vadSumSq, vadSumSq_foldl, vadSumSq_foldl, List.map_map]
  simp only [zero_add, Function.comp]
  rw [show ((fun x => x * x) ∘ fun x => k * x) = fun x => k * k * (x * x) by
        funext x; simp [Function.comp]; ring]
  induction xs with
  | nil => simp
  | cons y ys ih =>
      simp only [List.map, List.sum_cons]
      rw [ih]
      ring

theorem vadRms_scale (k : ℝ) (hk : 0 ≤ k) (xs : List ℝ) :
    vadRms (xs.map fun x => k * x) = k * vadRms xs := by
  rw [vadRms, vadRms, vadSumSq_scale, List.length_map]
  rw [show k * k * vadSumSq xs / xs.length = k * k * (vadSumSq xs / xs.length) by ring]
  rw [Real.sqrt_mul (mul_self_nonneg k), Real.sqrt_mul_self hk]

/-- Claim C7: the classifier is true exactly when `sqrt(mean(sample^2))`
exceeds the threshold 0.02, and it is monotonic in input amplitude: scaling
every sample of a block classified true by any `k > 1` keeps it true. -/
theorem claim_c7_vad (xs : List ℝ) (k : ℝ) (hk : 1 < k) (hx : vadClassify xs) :
    (∀ ys : List ℝ,
      vadClassify ys ↔ Real.sqrt ((ys.map fun x => x * x).sum / ys.length) > 0.02) ∧
    vadClassify (xs.map fun x => k * x) := by
  constructor
  · intro ys
    rw [vadClassify, vadRms, vadSumSq, vadSumSq_foldl, zero_add]
  · rw [vadClassify, vadRms_scale k (le_of_lt (lt_trans zero_lt_one hk))]
    rw [vadClassify] at hx
    calc (0.02 : ℝ) < vadRms xs := hx
      _ = 1 * vadRms xs := (one_mul _).symm
      _ < k * vadRms xs :=
          mul_lt_mul_of_pos_right hk (lt_trans (by norm_num) hx)

/-- Witness for C7: the one-sample block `[1]` has RMS 1 > 0.02, and after
scaling by `k = 2` it is still classified as speech. -/
theorem claim_c7_witness :
    (1 : ℝ) < 2 ∧ vadClassify ([(1 : ℝ)].map fun x => (2 : ℝ) * x) := by
  have h1 : vadClassify [(1 : ℝ)] := by
    rw [vadClassify, vadRms, vadSumSq]
    simp only [List.foldl, List.length_singleton, Nat.cast_one]
    rw [zero_add, one_mul, div_one, Real.sqrt_one]
    norm_num
  exact ⟨by norm_num, (claim_c7_vad [(1 : ℝ)] 2 (by norm_num) h1).2⟩

/-! ## Session close vs. in-flight decodes (C8)

Source (`AvatarInteraction.tsx`, live variant): `onmessage` reads
`outputAudioContextRef.current` and only if it is non-null starts the decode
(`await decodeAudioData(...)`), after which it schedules unconditionally —
there is no second check after the `await`. `disconnect()` closes the
session and sets `outputAudioContextRef.current = null`.
-/

structure LiveState where
  ctxOpen : Bool
  horizon : ℚ
  pending : List ℚ
  closedSchedules : ℕ
deriving DecidableEq

inductive LEvent where
  /-- A message with an audio payload arrives; its decode is started only if
  the output-context reference is non-null. `dur` is the decoded duration. -/
  | arrive (dur : ℚ)
  /-- The oldest in-flight decode completes at clock reading `now`; the code
  schedules the buffer unconditionally. -/
  | decodeDone (now : ℚ)
  /-- `disconnect()` runs: the session is closed and the output-context
  reference is nulled. -/
  | close
deriving DecidableEq

/-- One step of the session's event loop. `closedSchedules` counts buffers
scheduled while the session is closed. -/
def lstep (st : LiveState) : LEvent → LiveState
  | .arrive dur =>
      if st.ctxOpen then { st with pending := st.pending ++ [dur] } else st
  | .decodeDone now =>
      match st.pending with
      | [] => st
      | dur :: rest =>
          { st with
            pending := rest
            horizon := (schedule now dur st.horizon).2
            closedSchedules := st.closedSchedules + (if st.ctxOpen then 0 else 1) }
  | .close => { st with ctxOpen := false }

def lrun (st : LiveState) (evs : List LEvent) : LiveState := evs.foldl lstep st

/-- The session-initial state: connected, horizon 0, nothing in flight. -/
def initLive : LiveState := ⟨true, 0, [], 0⟩

/-- Counterexample to C8 as stated: a decode started before `close()` but
completing after it is still scheduled — the trace arrive(1), close,
decodeDone(2) schedules one buffer onto the closed session and moves the
horizon to 3. -/
theorem claim_c8_counterexample :
    (lrun initLive [LEvent.arrive 1, LEvent.close, LEvent.decodeDone 2]).closedSchedules ≠ 0 ∧
    (lrun initLive [LEvent.arrive 1, LEvent.close, LEvent.decodeDone 2]).horizon = 3 := by
  constructor
  · rw [lrun]
    simp [lstep, initLive, List.foldl]
  · rw [lrun]
    simp [lstep, initLive, List.foldl, schedule]
    norm_num

/-- Claim C8 (amended): a message arriving after `close()` is discarded —
once the session is closed with no decode in flight, no further event can
schedule anything: the horizon and the closed-schedule count are frozen. A
decode already in flight at close time, however, is still scheduled on
completion (see the counterexample). -/
theorem claim_c8_closed_session_frozen :
    ∀ (evs : List LEvent) (st : LiveState),
      st.ctxOpen = false → st.pending = [] →
      (lrun st evs).closedSchedules = st.closedSchedules ∧
      (lrun st evs).horizon = st.horizon ∧
      (lrun st evs).ctxOpen = false ∧ (lrun st evs).pending = []
  | [], st, hopen, hpend => ⟨rfl, rfl, hopen, hpend⟩
  | ev :: rest, st, hopen, hpend => by
      have hstep : lstep st ev = st ∨
          lstep st ev = { st with ctxOpen := false } := by
        cases ev with
        | arrive dur =>
            rw [lstep, hopen]
            exact Or.inl (if_neg (fun h => Bool.false_ne_true h))
        | decodeDone now =>
            rw [lstep, hpend]
            exact Or.inl rfl
        | close => exact Or.inr rfl
      rcases hstep with h | h
      · have ih := claim_c8_closed_session_frozen rest (lstep st ev)
          (by rw [h]; exact hopen) (by rw [h]; exact hpend)
        rw [lrun, List.foldl] at *
        rw [h] at ih ⊢
        exact ih
      · have ih := claim_c8_closed_session_frozen rest (lstep st ev)
          (by rw [h]) (by rw [h]; exact hpend)
        rw [lrun, List.foldl] at *
        rw [h] at ih ⊢
        exact ⟨ih.1, ih.2.1, ih.2.2.1, ih.2.2.2⟩

/-- Witness for C8 (amended): from a closed idle session with horizon 7,
the trace arrive(1), decodeDone(2) schedules nothing and leaves the horizon
at 7. -/
theorem claim_c8_witness :
    (⟨false, 7, [], 0⟩ : LiveState).ctxOpen = false ∧
    (lrun ⟨false, 7, [], 0⟩ [LEvent.arrive 1, LEvent.decodeDone 2]).closedSchedules = 0 ∧
    (lrun ⟨false, 7, [], 0⟩ [LEvent.arrive 1, LEvent.decodeDone 2]).horizon = 7 :=
  ⟨rfl,
   (claim_c8_closed_session_frozen [LEvent.arrive 1, LEvent.decodeDone 2]
      ⟨false, 7, [], 0⟩ rfl rfl).1,
   (claim_c8_closed_session_frozen [LEvent.arrive 1, LEvent.decodeDone 2]
      ⟨false, 7, [], 0⟩ rfl rfl).2.1⟩

/-! ## Turn-based `processConversation` guard (C9)

Source (`AvatarInteraction.tsx`, turn-based variant):
  const processConversation = async (text: string) => {
    if (!text.trim() || (status !== 'idle' && status !== 'listening')) return;
    setStatus('thinking'); setError(null); setDisplayedText('');
    if (sourceRef.current) { sourceRef.current.stop(); setIsSpeaking(false); }
    ... const textResponse = await getChatResponse(text); ...
-/

inductive Status where
  | idle
  | listening
  | thinking
  | generatingAudio
  | speaking
deriving DecidableEq

structure TBState where
  status : Status
  error : Option String
  displayedText : List Char
  isSpeaking : Bool
  sourceActive : Bool
deriving DecidableEq

/-- The whitespace characters relevant to `String.prototype.trim`. -/
def isWS (c : Char) : Bool :=
  c = ' ' || c = '\t' || c = '\n' || c = '\r'

/-- `text.trim()`: strip leading and trailing whitespace. -/
def jsTrim (s : List Char) : List Char :=
  ((s.dropWhile isWS).reverse.dropWhile isWS).reverse

/-- The synchronous prefix of `processConversation`, up to the first remote
request: returns the updated component state together with the list of chat
requests issued. -/
def processConversationStart (text : List Char) (st : TBState) :
    TBState × List (List Char) :=
  if (jsTrim text).isEmpty ||
      !(st.status = Status.idle || st.status = Status.listening) then
    (st, [])
  else
    ({ st with
        status := Status.thinking
        error := none
        displayedText := []
        isSpeaking := if st.sourceActive then false else st.isSpeaking },
     [text])

theorem jsTrim_eq_nil_of_all_ws (text : List Char) (h : text.all isWS = true) :
    jsTrim text = [] := by
  rw [List.all_eq_true] at h
  have h1 : text.dropWhile isWS = [] := List.dropWhile_eq_nil_iff.mpr h
  rw [jsTrim, h1]
  rfl

/-- Claim C9: a call to `processConversation` whose text is empty or
whitespace-only, or made while the status is neither `idle` nor `listening`
(in particular while `speaking`), leaves the component state unchanged and
issues no remote request. -/
theorem claim_c9_guard (text : List Char) (st : TBState)
    (h : text.all isWS = true ∨
         (st.status ≠ Status.idle ∧ st.status ≠ Status.listening)) :
    processConversationStart text st = (st, []) := by
  rw [processConversationStart, if_pos]
  rcases h with hws | ⟨h1, h2⟩
  · rw [jsTrim_eq_nil_of_all_ws text hws]
    rfl
  · simp [h1, h2]

/-- Witness for C9: the non-blank text "hi" submitted while the status is
`speaking` is a no-op, and the blank text "  " submitted while idle is too.
-/
theorem claim_c9_witness :
    processConversationStart [Char.ofNat 104, Char.ofNat 105]
      ⟨Status.speaking, none, [], true, true⟩ =
      (⟨Status.speaking, none, [], true, true⟩, []) ∧
    processConversationStart [' ', ' '] ⟨Status.idle, none, [], false, false⟩ =
      (⟨Status.idle, none, [], false, false⟩, []) :=
  ⟨claim_c9_guard _ _ (Or.inr ⟨fun h => Status.noConfusion h,
      fun h => Status.noConfusion h⟩),
   claim_c9_guard _ _ (Or.inl (by decide))⟩

/-! ## `getChatResponse` (C10)

Source (`src/unnamed/part_001`, services):
  try {
    const response = await ai.models.generateContent({...});
    return response.text || "I'm not sure what to say.";
  } catch (error) {
    throw new Error("I couldn't think of a response.");
  }
-/

/-- The part of the model's reply that `getChatResponse` reads:
`response.text`, which may be missing. -/
structure GenResponse where
  text : Option String
deriving DecidableEq

def fallbackMsg : String := "I\x27m not sure what to say."

def chatErrorMsg : String := "I couldn\x27t think of a response."

/-- JavaScript `a || b` on a possibly-undefined string: the fallback is used
when the string is undefined or empty (falsy). -/
def jsOrElse (t : Option String) (fb : String) : String :=
  match t with
  | some s => if s = "" then fb else s
  | none => fb

/-- `getChatResponse`, as a function of the outcome of the remote call:
on success it returns `response.text || fallback`; on any failure it throws
the fixed error message. -/
def getChatResponse (api : Except Unit GenResponse) : Except String String :=
  match api with
  | .ok resp => .ok (jsOrElse resp.text fallbackMsg)
  | .error _ => .error chatErrorMsg

/-- Claim C10: `getChatResponse` never resolves to an empty string — it
returns the model's text when non-empty, the fixed fallback when the text is
empty or missing, and on API failure it raises the fixed error message. -/
theorem claim_c10_chat_response :
    (∀ api s, getChatResponse api = .ok s → s ≠ "") ∧
    (∀ t : String, t ≠ "" → getChatResponse (.ok ⟨some t⟩) = .ok t) ∧
    getChatResponse (.ok ⟨some ""⟩) = .ok fallbackMsg ∧
    getChatResponse (.ok ⟨none⟩) = .ok fallbackMsg ∧
    (∀ e, getChatResponse (.error e) = .error chatErrorMsg) := by
  have hfb : fallbackMsg ≠ "" := by decide
  refine ⟨?_, ?_, rfl, rfl, fun e => rfl⟩
  · intro api s hs
    cases api with
    | error e => exact absurd hs (by rw [getChatResponse]; intro h; cases h)
    | ok resp =>
        rw [getChatResponse] at hs
        cases hs
        cases htext : resp.text with
        | none => exact hfb
        | some t =>
            by_cases ht : t = ""
            · rw [jsOrElse, if_pos ht]; exact hfb
            · rw [jsOrElse, if_neg ht]; exact ht
  · intro t ht
    rw [getChatResponse, jsOrElse, if_neg ht]

/-- Witness for C10: a non-empty model reply is returned verbatim and is
non-empty. -/
theorem claim_c10_witness :
    getChatResponse (.ok ⟨some "hello"⟩) = .ok "hello" ∧
    ("hello" : String) ≠ "" :=
  ⟨claim_c10_chat_response.2.1 "hello" (by decide), by decide⟩

end Talky
